import Mathlib

/-
Verification of pyrodash, a pyrochlore-lattice geometry library.

The development shallowly embeds the coordinate mathematics of the Python
source (pyrodash/cell.py, pyrodash/blocks/{arrow,spins,monopole,tetrahedra}.py,
pyrodash/geometrics/{parallelepiped,cylinder,cone,circle,sphere}.py,
pyrodash/utils/linalg.py).  Floating-point arithmetic is modelled exactly over
the real numbers; numpy 3-vectors become the structure Vec3; Python exceptions
(ValueError, IndexError) become Except/Option results.  Rendering-only data
(plotly surface meshes, colorscales, lighting) is not part of any verified
property and is omitted from the embedded records, which keep exactly the
coordinate fields the properties refer to.
-/

set_option maxHeartbeats 1000000
set_option maxRecDepth 8000

namespace Pyrodash

/-- Three-component real coordinate vector, the model of a numpy array of
shape (3,) holding x, y, z coordinates. -/
@[ext]
structure Vec3 where
  x : ℝ
  y : ℝ
  z : ℝ

noncomputable section

/-- Componentwise addition, numpy elementwise `+` on 3-vectors. -/
def vadd (a b : Vec3) : Vec3 := ⟨a.x + b.x, a.y + b.y, a.z + b.z⟩

/-- Componentwise subtraction, numpy elementwise `-` on 3-vectors. -/
def vsub (a b : Vec3) : Vec3 := ⟨a.x - b.x, a.y - b.y, a.z - b.z⟩

/-- Scalar times vector, numpy broadcasting `t * v`. -/
def smul3 (t : ℝ) (a : Vec3) : Vec3 := ⟨t * a.x, t * a.y, t * a.z⟩

/-- Vector divided by a scalar, numpy broadcasting `v / t`. -/
def vdiv (a : Vec3) (t : ℝ) : Vec3 := ⟨a.x / t, a.y / t, a.z / t⟩

instance : Add Vec3 := ⟨vadd⟩
instance : Sub Vec3 := ⟨vsub⟩

@[simp] theorem vadd_x (a b : Vec3) : (a + b).x = a.x + b.x := rfl
@[simp] theorem vadd_y (a b : Vec3) : (a + b).y = a.y + b.y := rfl
@[simp] theorem vadd_z (a b : Vec3) : (a + b).z = a.z + b.z := rfl
@[simp] theorem vsub_x (a b : Vec3) : (a - b).x = a.x - b.x := rfl
@[simp] theorem vsub_y (a b : Vec3) : (a - b).y = a.y - b.y := rfl
@[simp] theorem vsub_z (a b : Vec3) : (a - b).z = a.z - b.z := rfl
@[simp] theorem smul3_x (t : ℝ) (a : Vec3) : (smul3 t a).x = t * a.x := rfl
@[simp] theorem smul3_y (t : ℝ) (a : Vec3) : (smul3 t a).y = t * a.y := rfl
@[simp] theorem smul3_z (t : ℝ) (a : Vec3) : (smul3 t a).z = t * a.z := rfl
@[simp] theorem vdiv_x (a : Vec3) (t : ℝ) : (vdiv a t).x = a.x / t := rfl
@[simp] theorem vdiv_y (a : Vec3) (t : ℝ) : (vdiv a t).y = a.y / t := rfl
@[simp] theorem vdiv_z (a : Vec3) (t : ℝ) : (vdiv a t).z = a.z / t := rfl

/-- Euclidean inner product of two 3-vectors. -/
def dot (a b : Vec3) : ℝ := a.x * b.x + a.y * b.y + a.z * b.z

/-- Cross product, numpy `np.cross` on 3-vectors. -/
def cross (a b : Vec3) : Vec3 :=
  ⟨a.y * b.z - a.z * b.y, a.z * b.x - a.x * b.z, a.x * b.y - a.y * b.x⟩

/-- Euclidean norm, `numpy.linalg.norm` / `scipy.linalg.norm` of a 3-vector. -/
def norm3 (a : Vec3) : ℝ := Real.sqrt (dot a a)

/-- Normalisation `v / norm(v)` as written in the source (componentwise
division by the norm). -/
def normalize3 (a : Vec3) : Vec3 := vdiv a (norm3 a)

theorem dot_self_nonneg (a : Vec3) : 0 ≤ dot a a := by
  have hx := sq_nonneg a.x
  have hy := sq_nonneg a.y
  have hz := sq_nonneg a.z
  simp only [dot]
  nlinarith

theorem dot_self_pos (a : Vec3) (h : a ≠ ⟨0, 0, 0⟩) : 0 < dot a a := by
  rcases lt_or_eq_of_le (dot_self_nonneg a) with hlt | heq
  · exact hlt
  · exfalso
    apply h
    simp only [dot] at heq
    have hx : a.x = 0 := by nlinarith [sq_nonneg a.x, sq_nonneg a.y, sq_nonneg a.z]
    have hy : a.y = 0 := by nlinarith [sq_nonneg a.x, sq_nonneg a.y, sq_nonneg a.z]
    have hz : a.z = 0 := by nlinarith [sq_nonneg a.x, sq_nonneg a.y, sq_nonneg a.z]
    exact Vec3.ext hx hy hz

theorem norm3_pos (a : Vec3) (h : a ≠ ⟨0, 0, 0⟩) : 0 < norm3 a :=
  Real.sqrt_pos.mpr (dot_self_pos a h)

theorem sq_norm3 (a : Vec3) : norm3 a ^ 2 = dot a a :=
  Real.sq_sqrt (dot_self_nonneg a)

theorem norm3_eq_one_iff (a : Vec3) : norm3 a = 1 ↔ dot a a = 1 := by
  constructor
  · intro h
    have := sq_norm3 a
    rw [h] at this
    linarith [this]
  · intro h
    simp [norm3, h]

/-- Normalising any nonzero vector yields a unit vector. -/
theorem norm3_normalize3 (a : Vec3) (h : a ≠ ⟨0, 0, 0⟩) :
    norm3 (normalize3 a) = 1 := by
  have hpos := norm3_pos a h
  have hne : norm3 a ≠ 0 := ne_of_gt hpos
  rw [norm3_eq_one_iff]
  have hsq := sq_norm3 a
  simp only [normalize3, vdiv, dot]
  field_simp
  simp only [dot] at hsq
  nlinarith [hsq]

/-- Normalising a vector that is already unit length returns it unchanged. -/
theorem normalize3_of_norm_one (a : Vec3) (h : norm3 a = 1) :
    normalize3 a = a := by
  simp [normalize3, vdiv, h]

theorem norm3_smul3 (t : ℝ) (a : Vec3) : norm3 (smul3 t a) = |t| * norm3 a := by
  simp only [norm3, dot, smul3]
  rw [show t * a.x * (t * a.x) + t * a.y * (t * a.y) + t * a.z * (t * a.z) =
      t ^ 2 * (a.x * a.x + a.y * a.y + a.z * a.z) by ring]
  rw [Real.sqrt_mul (sq_nonneg t), Real.sqrt_sq_eq_abs]

/-!
## Linear algebra utility (pyrodash/utils/linalg.py)

perpendicular_plane_vectors(vector) chooses the reference [1,0,0], replaced
by [0,1,0] only when the input equals [1,0,0] exactly, then returns
  n1 = cross(vector, reference) / norm(cross(vector, reference)),
  n2 = cross(vector, n1).
-/

open Classical in
/-- Reference vector chosen at linalg.py lines 32-34: [1,0,0] by default,
[0,1,0] when the input equals [1,0,0] exactly. -/
def not_vector (v : Vec3) : Vec3 :=
  if v = ⟨1, 0, 0⟩ then ⟨0, 1, 0⟩ else ⟨1, 0, 0⟩

/-- The pair (n1, n2) computed by linalg.perpendicular_plane_vectors. -/
def perpendicular_plane_vectors (v : Vec3) : Vec3 × Vec3 :=
  let n1 := cross v (not_vector v)
  let n1u := vdiv n1 (norm3 n1)
  (n1u, cross v n1u)

theorem perpendicular_plane_vectors_def (v : Vec3) :
    perpendicular_plane_vectors v =
      (vdiv (cross v (not_vector v)) (norm3 (cross v (not_vector v))),
       cross v (vdiv (cross v (not_vector v)) (norm3 (cross v (not_vector v))))) := rfl

/-- Counterexample to C5 as stated: v = [-1,0,0] is a unit vector parallel to
the default reference [1,0,0], the fallback is not taken because the equality
test at linalg.py line 33 only matches [1,0,0], the cross product with the
reference is the zero vector, and the returned n1 is degenerate (in the source
the division 0/0 produces NaN; in this exact-arithmetic model it produces the
zero vector).  Either way its norm is not 1. -/
theorem perpendicular_plane_vectors_c5_counterexample :
    norm3 ⟨-1, 0, 0⟩ = 1 ∧
    norm3 (perpendicular_plane_vectors ⟨-1, 0, 0⟩).1 ≠ 1 := by
  constructor
  · norm_num [norm3, dot]
  · rw [perpendicular_plane_vectors_def]
    norm_num [not_vector, cross, vdiv, norm3, dot, Vec3.ext_iff]

/-- C5 (amended): for every unit vector v other than [-1,0,0] — including the
fallback branch v = [1,0,0] — perpendicular_plane_vectors returns two unit
vectors orthogonal to v and to each other.  At v = [-1,0,0] the chosen
reference is parallel to v and the result is degenerate. -/
theorem perpendicular_plane_vectors_spec (v : Vec3) (hv : norm3 v = 1)
    (hne : v ≠ ⟨-1, 0, 0⟩) :
    norm3 (perpendicular_plane_vectors v).1 = 1 ∧
    norm3 (perpendicular_plane_vectors v).2 = 1 ∧
    dot (perpendicular_plane_vectors v).1 v = 0 ∧
    dot (perpendicular_plane_vectors v).2 v = 0 ∧
    dot (perpendicular_plane_vectors v).1 (perpendicular_plane_vectors v).2 = 0 := by
  have hS : v.x ^ 2 + v.y ^ 2 + v.z ^ 2 = 1 := by
    have h := (norm3_eq_one_iff v).mp hv
    simp only [dot] at h
    nlinarith [h]
  by_cases hx : v = ⟨1, 0, 0⟩
  · subst hx
    have hnv : not_vector ⟨1, 0, 0⟩ = ⟨0, 1, 0⟩ := by simp [not_vector]
    have hc : cross ⟨1, 0, 0⟩ ⟨0, 1, 0⟩ = ⟨0, 0, 1⟩ := by
      ext <;> simp [cross]
    have hn : norm3 (⟨0, 0, 1⟩ : Vec3) = 1 := by
      simp [norm3, dot]
    have hd : vdiv (⟨0, 0, 1⟩ : Vec3) 1 = ⟨0, 0, 1⟩ := by
      ext <;> simp [vdiv]
    have hc2 : cross ⟨1, 0, 0⟩ ⟨0, 0, 1⟩ = ⟨0, -1, 0⟩ := by
      ext <;> simp [cross]
    rw [perpendicular_plane_vectors_def, hnv, hc, hn, hd, hc2]
    refine ⟨hn, ?_, ?_, ?_, ?_⟩ <;> norm_num [norm3, dot]
  · have hnv : not_vector v = ⟨1, 0, 0⟩ := by
      simp only [not_vector, if_neg hx]
    have hcv : cross v ⟨1, 0, 0⟩ = ⟨0, v.z, -v.y⟩ := by
      ext <;> simp [cross]
    have hS2pos : 0 < v.y ^ 2 + v.z ^ 2 := by
      rcases lt_or_le 0 (v.y ^ 2 + v.z ^ 2) with h | h
      · exact h
      · exfalso
        have hy : v.y = 0 := by nlinarith [sq_nonneg v.y, sq_nonneg v.z]
        have hz : v.z = 0 := by nlinarith [sq_nonneg v.y, sq_nonneg v.z]
        have hx2 : v.x * v.x = 1 := by nlinarith [hS]
        rcases mul_self_eq_one_iff.mp hx2 with h1 | h1
        · exact hx (Vec3.ext h1 hy hz)
        · exact hne (Vec3.ext h1 hy hz)
    rw [perpendicular_plane_vectors_def, hnv, hcv]
    set s := norm3 (⟨0, v.z, -v.y⟩ : Vec3) with hs_def
    have hs2 : s ^ 2 = v.y ^ 2 + v.z ^ 2 := by
      rw [hs_def, sq_norm3]
      simp only [dot]
      ring
    have hspos : 0 < s := by
      rw [hs_def]
      apply Real.sqrt_pos.mpr
      simp only [dot]
      nlinarith [hS2pos]
    have hsne : s ≠ 0 := ne_of_gt hspos
    have hn1 : vdiv (⟨0, v.z, -v.y⟩ : Vec3) s = ⟨0, v.z / s, -(v.y / s)⟩ := by
      ext <;> simp [vdiv] <;> ring
    have hn2 : cross v ⟨0, v.z / s, -(v.y / s)⟩ =
        ⟨-((v.y ^ 2 + v.z ^ 2) / s), v.x * v.y / s, v.x * v.z / s⟩ := by
      ext <;> simp only [cross] <;> ring
    rw [hn1, hn2]
    refine ⟨?_, ?_, ?_, ?_, ?_⟩
    · rw [norm3_eq_one_iff]
      have hdd : dot (⟨0, v.z / s, -(v.y / s)⟩ : Vec3) ⟨0, v.z / s, -(v.y / s)⟩ =
          (v.y ^ 2 + v.z ^ 2) / s ^ 2 := by
        simp only [dot]
        ring
      rw [hdd, ← hs2]
      exact div_self (pow_ne_zero 2 hsne)
    · rw [norm3_eq_one_iff]
      have hdd : dot (⟨-((v.y ^ 2 + v.z ^ 2) / s), v.x * v.y / s, v.x * v.z / s⟩ : Vec3)
          ⟨-((v.y ^ 2 + v.z ^ 2) / s), v.x * v.y / s, v.x * v.z / s⟩ =
          ((v.y ^ 2 + v.z ^ 2) ^ 2 + (v.x * v.y) ^ 2 + (v.x * v.z) ^ 2) / s ^ 2 := by
        simp only [dot]
        ring
      have hnum : (v.y ^ 2 + v.z ^ 2) ^ 2 + (v.x * v.y) ^ 2 + (v.x * v.z) ^ 2 = s ^ 2 := by
        linear_combination (v.y ^ 2 + v.z ^ 2) * hS - hs2
      rw [hdd, hnum]
      exact div_self (pow_ne_zero 2 hsne)
    · simp only [dot]
      ring
    · simp only [dot]
      ring
    · simp only [dot]
      ring

/-- Witness for the amended C5 at the unit vector (0,0,1), which takes the
default-reference branch. -/
theorem perpendicular_plane_vectors_spec_witness :
    (norm3 ⟨0, 0, 1⟩ = 1 ∧ (⟨0, 0, 1⟩ : Vec3) ≠ ⟨-1, 0, 0⟩) ∧
    (norm3 (perpendicular_plane_vectors ⟨0, 0, 1⟩).1 = 1 ∧
     norm3 (perpendicular_plane_vectors ⟨0, 0, 1⟩).2 = 1 ∧
     dot (perpendicular_plane_vectors ⟨0, 0, 1⟩).1 ⟨0, 0, 1⟩ = 0 ∧
     dot (perpendicular_plane_vectors ⟨0, 0, 1⟩).2 ⟨0, 0, 1⟩ = 0 ∧
     dot (perpendicular_plane_vectors ⟨0, 0, 1⟩).1
       (perpendicular_plane_vectors ⟨0, 0, 1⟩).2 = 0) := by
  have h1 : norm3 ⟨0, 0, 1⟩ = 1 := by simp [norm3, dot]
  have h2 : (⟨0, 0, 1⟩ : Vec3) ≠ ⟨-1, 0, 0⟩ := by
    intro h
    rw [Vec3.ext_iff] at h
    norm_num at h
  exact ⟨⟨h1, h2⟩, perpendicular_plane_vectors_spec ⟨0, 0, 1⟩ h1 h2⟩

/-!
## Tetrahedra (pyrodash/blocks/tetrahedra.py)

The class computes, from the up-tetrahedron center and the side length L of
the circumscribing cube (default 0.25),
  up_vertices   = center_up + L/2 * [[1,1,1],[1,-1,-1],[-1,-1,1],[-1,1,-1]]
  down_vertices = -up_vertices + 2 * up_vertices[0].
Plotly face meshes and hover labels are rendering data and are not modelled.
-/

/-- Fixed sign pattern of the four up-tetrahedron vertices, the rows of the
array at tetrahedra.py line 64. -/
def tetraSign : Fin 4 → Vec3 := ![⟨1, 1, 1⟩, ⟨1, -1, -1⟩, ⟨-1, -1, 1⟩, ⟨-1, 1, -1⟩]

/-- Up-tetrahedron vertices, tetrahedra.py `_vertices_calculation`. -/
def tetra_up_vertices (center_up : Vec3) (L : ℝ) : Fin 4 → Vec3 :=
  fun i => center_up + smul3 (L / 2) (tetraSign i)

/-- Down-tetrahedron vertices `-up_vertices + 2*up_vertices[0]`,
tetrahedra.py `_vertices_calculation`. -/
def tetra_down_vertices (center_up : Vec3) (L : ℝ) : Fin 4 → Vec3 :=
  fun i => smul3 (-1) (tetra_up_vertices center_up L i) +
    smul3 2 (tetra_up_vertices center_up L 0)

/-- C6: for every center and side length L > 0, the vertex arrays computed by
Tetrahedra satisfy down_vertices[0] = up_vertices[0] (the point reflection
through the first up-vertex fixes it), the four up-vertices are pairwise
distinct and the four down-vertices are pairwise distinct. -/
theorem tetrahedra_vertices_spec (c : Vec3) (L : ℝ) (hL : 0 < L) :
    tetra_down_vertices c L 0 = tetra_up_vertices c L 0 ∧
    (∀ m n : Fin 4, m ≠ n → tetra_up_vertices c L m ≠ tetra_up_vertices c L n) ∧
    (∀ m n : Fin 4, m ≠ n → tetra_down_vertices c L m ≠ tetra_down_vertices c L n) := by
  refine ⟨?_, ?_, ?_⟩
  · ext <;> simp [tetra_down_vertices, tetra_up_vertices, tetraSign] <;> ring
  · intro m n hmn heq
    rw [Vec3.ext_iff] at heq
    fin_cases m <;> fin_cases n <;>
      simp_all [tetra_up_vertices, tetraSign] <;> linarith
  · intro m n hmn heq
    rw [Vec3.ext_iff] at heq
    fin_cases m <;> fin_cases n <;>
      simp_all [tetra_down_vertices, tetra_up_vertices, tetraSign] <;> linarith

/-- Witness for C6 at center (0,0,0) and L = 1. -/
theorem tetrahedra_vertices_spec_witness :
    0 < (1 : ℝ) ∧
    (tetra_down_vertices ⟨0, 0, 0⟩ 1 0 = tetra_up_vertices ⟨0, 0, 0⟩ 1 0 ∧
    (∀ m n : Fin 4, m ≠ n →
      tetra_up_vertices ⟨0, 0, 0⟩ 1 m ≠ tetra_up_vertices ⟨0, 0, 0⟩ 1 n) ∧
    (∀ m n : Fin 4, m ≠ n →
      tetra_down_vertices ⟨0, 0, 0⟩ 1 m ≠ tetra_down_vertices ⟨0, 0, 0⟩ 1 n)) :=
  ⟨by norm_num, tetrahedra_vertices_spec ⟨0, 0, 0⟩ 1 (by norm_num)⟩

/-!
## Parametric shapes (pyrodash/geometrics/cylinder.py, cone.py, circle.py)

Each constructor normalises its axis input (`axis / norm(axis)`) and derives
the anchor points the composite shapes rely on.  The parametric surface
meshes (trigonometric x, y, z arrays) and plotly objects are rendering data
not referenced by any verified property, and are omitted from the records.
-/

/-- Coordinate data of a Cylinder: cylinder.py lines 69-76. -/
structure Cylinder3 where
  center : Vec3
  radius : ℝ
  length : ℝ
  axis : Vec3
  base_center : Vec3
  top_center : Vec3

/-- Cylinder construction: normalised axis, base center at
center - length/2 * axis and top center at center + length/2 * axis. -/
def mkCylinder (center : Vec3) (radius length : ℝ) (axis : Vec3) : Cylinder3 :=
  let a := normalize3 axis
  { center := center, radius := radius, length := length, axis := a,
    base_center := center - smul3 (length / 2) a,
    top_center := center + smul3 (length / 2) a }

/-- Coordinate data of a Cone: cone.py lines 66-72. -/
structure Cone3 where
  base_center : Vec3
  base_radius : ℝ
  length : ℝ
  axis : Vec3
  tip : Vec3

/-- Cone construction: normalised axis, tip = base_center + axis * length. -/
def mkCone (base_center : Vec3) (base_radius length : ℝ) (axis : Vec3) : Cone3 :=
  let a := normalize3 axis
  { base_center := base_center, base_radius := base_radius, length := length,
    axis := a, tip := base_center + smul3 length a }

/-- Coordinate data of a Circle: circle.py lines 54-57. -/
structure Circle3 where
  center : Vec3
  radius : ℝ
  axis : Vec3

/-- Circle construction (the 50-point boundary scatter is rendering data). -/
def mkCircle (center : Vec3) (radius : ℝ) (axis : Vec3) : Circle3 :=
  { center := center, radius := radius, axis := normalize3 axis }

/-- Euclidean distance between two points. -/
def dist3 (p q : Vec3) : ℝ := norm3 (vsub q p)

/-!
## Arrow (pyrodash/blocks/arrow.py)

Composite of a Cylinder shaft, a Cone head and two Circle caps.  The
constructor raises ValueError exactly when the pivot string is not one of
tail / mid / tip (arrow.py lines 92-98); this is modelled by returning
Except.error.  cone_length_ratio and cone_cylinder_radius_ratio are the
cone_len_frac and cone_cyl_rad_frac arguments below (defaults 0.4 and 1.8).
-/

/-- The data of a successfully constructed Arrow. -/
structure Arrow3 where
  pos : Vec3
  radius : ℝ
  length : ℝ
  axis : Vec3
  pivot : String
  surface_color : String
  cylinder : Cylinder3
  base_cylinder : Circle3
  cone : Cone3
  base_cone : Circle3

/-- Arrow construction, arrow.py lines 80-137.  The three pivot anchorings
place the cylinder center relative to pos; the cone sits on the cylinder
top, the caps on the cylinder base and cone base. -/
def mkArrow (pos : Vec3) (radius length : ℝ) (axis : Vec3)
    (cone_len_frac cone_cyl_rad_frac : ℝ) (pivot : String)
    (surface_color : String) : Except String Arrow3 :=
  let a := normalize3 axis
  let cylinder_radius := radius
  let cylinder_length := (1 - cone_len_frac) * length
  let cone_base_radius := cone_cyl_rad_frac * cylinder_radius
  let cone_length := cone_len_frac * length
  if pivot = "tail" ∨ pivot = "mid" ∨ pivot = "tip" then
    let cylinder_center :=
      if pivot = "tail" then pos + smul3 (0.5 * cylinder_length) a
      else if pivot = "mid" then pos - smul3 (0.5 * cone_length) a
      else pos - smul3 (cone_length + 0.5 * cylinder_length) a
    let cyl := mkCylinder cylinder_center cylinder_radius cylinder_length a
    let bcyl := mkCircle cyl.base_center cylinder_radius a
    let cone := mkCone cyl.top_center cone_base_radius cone_length a
    let bcone := mkCircle cone.base_center cone_base_radius a
    Except.ok { pos := pos, radius := radius, length := length, axis := a,
                pivot := pivot, surface_color := surface_color,
                cylinder := cyl, base_cylinder := bcyl,
                cone := cone, base_cone := bcone }
  else
    Except.error "invalid pivot value"

/-- C7: an Arrow built with pivot tip has its cone tip exactly at the
supplied position, for every position, radius > 0, length > 0, nonzero axis,
cone length fraction in (0,1) and cone/cylinder radius factor > 0. -/
theorem arrow_tip_pivot_spec (pos : Vec3) (radius length : ℝ) (axis : Vec3)
    (clf ccf : ℝ) (sc : String) (haxis : axis ≠ ⟨0, 0, 0⟩) (hrad : 0 < radius)
    (hlen : 0 < length) (hclf : 0 < clf ∧ clf < 1) (hccf : 0 < ccf) :
    ∃ a, mkArrow pos radius length axis clf ccf "tip" sc = Except.ok a ∧
      a.cone.tip = pos := by
  have ha1 : norm3 (normalize3 axis) = 1 := norm3_normalize3 axis haxis
  have ha : normalize3 (normalize3 axis) = normalize3 axis :=
    normalize3_of_norm_one _ ha1
  refine ⟨_, rfl, ?_⟩
  dsimp only [mkArrow, mkCylinder, mkCone]
  rw [if_neg (by decide), if_neg (by decide), ha]
  ext <;> simp <;> ring

/-- Witness for C7 at pos = (1,2,3), radius 0.5, length 10, axis (0,0,1). -/
theorem arrow_tip_pivot_spec_witness :
    ((⟨0, 0, 1⟩ : Vec3) ≠ ⟨0, 0, 0⟩ ∧ (0 : ℝ) < 0.5 ∧ (0 : ℝ) < 10 ∧
      ((0 : ℝ) < 0.4 ∧ (0.4 : ℝ) < 1) ∧ (0 : ℝ) < 1.8) ∧
    ∃ a, mkArrow ⟨1, 2, 3⟩ 0.5 10 ⟨0, 0, 1⟩ 0.4 1.8 "tip" "blue" = Except.ok a ∧
      a.cone.tip = ⟨1, 2, 3⟩ := by
  have h1 : (⟨0, 0, 1⟩ : Vec3) ≠ ⟨0, 0, 0⟩ := by
    intro h
    rw [Vec3.ext_iff] at h
    norm_num at h
  refine ⟨⟨h1, by norm_num, by norm_num, ⟨by norm_num, by norm_num⟩, by norm_num⟩, ?_⟩
  exact arrow_tip_pivot_spec ⟨1, 2, 3⟩ 0.5 10 ⟨0, 0, 1⟩ 0.4 1.8 "blue" h1
    (by norm_num) (by norm_num) ⟨by norm_num, by norm_num⟩ (by norm_num)

/-- C10: with the default fractions (0.4, 1.8), for every valid pivot, any
nonzero axis and positive total length, the Arrow sub-shapes are contiguous:
the cone base sits at the cylinder top, the two caps sit at the cylinder
base and cone base, and the tail-to-tip distance is the total length. -/
theorem arrow_contiguity_spec (pos : Vec3) (radius length : ℝ) (axis : Vec3)
    (sc pivot : String)
    (hpiv : pivot = "tail" ∨ pivot = "mid" ∨ pivot = "tip")
    (haxis : axis ≠ ⟨0, 0, 0⟩) (hlen : 0 < length) :
    ∃ a, mkArrow pos radius length axis 0.4 1.8 pivot sc = Except.ok a ∧
      a.cone.base_center = a.cylinder.top_center ∧
      a.base_cylinder.center = a.cylinder.base_center ∧
      a.base_cone.center = a.cone.base_center ∧
      dist3 a.cylinder.base_center a.cone.tip = length := by
  have ha1 : norm3 (normalize3 axis) = 1 := norm3_normalize3 axis haxis
  have ha : normalize3 (normalize3 axis) = normalize3 axis :=
    normalize3_of_norm_one _ ha1
  have key : ∀ c : Vec3,
      dist3 (c - smul3 ((1 - 0.4) * length / 2) (normalize3 axis))
        ((c + smul3 ((1 - 0.4) * length / 2) (normalize3 axis)) +
          smul3 (0.4 * length) (normalize3 axis)) = length := by
    intro c
    have hdiff : vsub ((c + smul3 ((1 - 0.4) * length / 2) (normalize3 axis)) +
        smul3 (0.4 * length) (normalize3 axis))
        (c - smul3 ((1 - 0.4) * length / 2) (normalize3 axis)) =
        smul3 length (normalize3 axis) := by
      ext <;> simp [vsub] <;> ring
    rw [dist3, hdiff, norm3_smul3, ha1, abs_of_pos hlen, mul_one]
  rcases hpiv with hp | hp | hp <;> subst hp <;>
    refine ⟨_, rfl, ?_, ?_, ?_, ?_⟩ <;>
    dsimp only [mkArrow, mkCylinder, mkCone, mkCircle] <;>
    rw [ha] <;>
    first
      | rfl
      | exact key _

/-- Witness for C10 at pivot mid, pos = origin, radius 1, length 2,
axis (0,1,0). -/
theorem arrow_contiguity_spec_witness :
    (("mid" = "tail" ∨ "mid" = "mid" ∨ "mid" = "tip") ∧
      (⟨0, 1, 0⟩ : Vec3) ≠ ⟨0, 0, 0⟩ ∧ (0 : ℝ) < 2) ∧
    ∃ a, mkArrow ⟨0, 0, 0⟩ 1 2 ⟨0, 1, 0⟩ 0.4 1.8 "mid" "black" = Except.ok a ∧
      a.cone.base_center = a.cylinder.top_center ∧
      a.base_cylinder.center = a.cylinder.base_center ∧
      a.base_cone.center = a.cone.base_center ∧
      dist3 a.cylinder.base_center a.cone.tip = 2 := by
  have h1 : (⟨0, 1, 0⟩ : Vec3) ≠ ⟨0, 0, 0⟩ := by
    intro h
    rw [Vec3.ext_iff] at h
    norm_num at h
  refine ⟨⟨Or.inr (Or.inl rfl), h1, by norm_num⟩, ?_⟩
  exact arrow_contiguity_spec ⟨0, 0, 0⟩ 1 2 ⟨0, 1, 0⟩ "black" "mid"
    (Or.inr (Or.inl rfl)) h1 (by norm_num)

/-!
## Spins (pyrodash/blocks/spins.py)

Validation first (every spin value must be exactly 1 or -1, else ValueError),
then axes = diag(s1234) @ base_spin_axes (rows of the fixed crystallographic
set scaled by the spin sign; numpy requires len(s1234) = 4 for this matrix
product, anything else raises a shape mismatch), colors blue for +1 and black
for -1, and one Arrow per site with radius 0.036, length 0.6, pivot mid.
-/

/-- Sequential construction of a list of fallible results, the model of a
Python list comprehension whose element constructor may raise. -/
def exceptMap {α β : Type} (f : α → Except String β) : List α → Except String (List β)
  | [] => Except.ok []
  | a :: as =>
    match f a, exceptMap f as with
    | Except.ok b, Except.ok bs => Except.ok (b :: bs)
    | Except.error e, _ => Except.error e
    | Except.ok _, Except.error e => Except.error e

theorem exceptMap_ok {α β : Type} (f : α → Except String β) (l : List α)
    (h : ∀ x ∈ l, ∃ b, f x = Except.ok b) :
    ∃ bs, exceptMap f l = Except.ok bs := by
  induction l with
  | nil => exact ⟨[], rfl⟩
  | cons a as ih =>
    obtain ⟨b, hb⟩ := h a (List.mem_cons_self a as)
    obtain ⟨bs, hbs⟩ := ih (fun x hx => h x (List.mem_cons_of_mem a hx))
    exact ⟨b :: bs, by simp [exceptMap, hb, hbs]⟩

/-- Base spin axes of an Up tetrahedron, spins.py lines 36-38:
[[1,1,1],[1,-1,-1],[-1,-1,1],[-1,1,-1]] / sqrt(3). -/
def base_spin_axes : List Vec3 :=
  [vdiv ⟨1, 1, 1⟩ (Real.sqrt 3), vdiv ⟨1, -1, -1⟩ (Real.sqrt 3),
   vdiv ⟨-1, -1, 1⟩ (Real.sqrt 3), vdiv ⟨-1, 1, -1⟩ (Real.sqrt 3)]

/-- The data of a successfully constructed Spins group. -/
structure Spins3 where
  positions : List Vec3
  s1234 : List ℤ
  axes : List Vec3
  colors : List String
  arrows : List Arrow3

/-- Spins construction, spins.py lines 51-65. -/
def mkSpins (positions : List Vec3) (s1234 : List ℤ) : Except String Spins3 :=
  if s1234.all (fun s => s == 1 || s == -1) then
    if s1234.length = 4 then
      let axes := List.zipWith (fun (s : ℤ) ax => smul3 (s : ℝ) ax) s1234 base_spin_axes
      let colors := s1234.map (fun s => if s = 1 then "blue" else "black")
      match exceptMap
          (fun pac => mkArrow pac.1 0.036 0.6 pac.2.1 0.4 1.8 "mid" pac.2.2)
          (List.zip positions (List.zip axes colors)) with
      | Except.ok arrows =>
        Except.ok { positions := positions, s1234 := s1234, axes := axes,
                    colors := colors, arrows := arrows }
      | Except.error e => Except.error e
    else Except.error "matmul shape mismatch"
  else Except.error "spin values must be 1 or -1"

/-- C8: Arrow construction succeeds iff the pivot is tail, mid or tip, and
(for the documented arity of four spin values) Spins construction succeeds
iff every spin value is exactly 1 or -1; a failure returns only an error, no
partial object. -/
theorem construction_error_spec (pos : Vec3) (radius length : ℝ) (axis : Vec3)
    (clf ccf : ℝ) (pivot sc : String) (positions : List Vec3) (s1234 : List ℤ)
    (hlen4 : s1234.length = 4) :
    ((∃ a, mkArrow pos radius length axis clf ccf pivot sc = Except.ok a) ↔
      (pivot = "tail" ∨ pivot = "mid" ∨ pivot = "tip")) ∧
    ((∃ sp, mkSpins positions s1234 = Except.ok sp) ↔
      ∀ s ∈ s1234, s = 1 ∨ s = -1) := by
  constructor
  · by_cases hc : pivot = "tail" ∨ pivot = "mid" ∨ pivot = "tip" <;>
      simp [mkArrow, hc]
  · by_cases hval : s1234.all (fun s => s == 1 || s == -1) = true
    · have hvals : ∀ s ∈ s1234, s = 1 ∨ s = -1 := by
        intro s hs
        have := List.all_eq_true.mp hval s hs
        simpa using this
      obtain ⟨bs, hbs⟩ := exceptMap_ok
        (fun pac => mkArrow pac.1 0.036 0.6 pac.2.1 0.4 1.8 "mid" pac.2.2)
        (List.zip positions (List.zip
          (List.zipWith (fun (s : ℤ) ax => smul3 (s : ℝ) ax) s1234 base_spin_axes)
          (s1234.map (fun s => if s = 1 then "blue" else "black"))))
        (fun x _ => ⟨_, rfl⟩)
      simp only [mkSpins, hval, if_true, hlen4, if_pos]
      rw [hbs]
      simpa using hvals
    · have hvals : ¬∀ s ∈ s1234, s = 1 ∨ s = -1 := by
        intro hall
        apply hval
        rw [List.all_eq_true]
        intro s hs
        have := hall s hs
        simpa using this
      simp [mkSpins, hval, hvals]

/-- Witness for C8 at an arbitrary concrete instantiation with four spins. -/
theorem construction_error_spec_witness :
    ([(1 : ℤ), -1, 1, -1].length = 4) ∧
    ((∃ a, mkArrow ⟨0, 0, 0⟩ 1 1 ⟨1, 1, 1⟩ 0.4 1.8 "up" "blue" = Except.ok a) ↔
      ("up" = "tail" ∨ "up" = "mid" ∨ "up" = "tip")) ∧
    ((∃ sp, mkSpins [] [(1 : ℤ), -1, 1, -1] = Except.ok sp) ↔
      ∀ s ∈ [(1 : ℤ), -1, 1, -1], s = 1 ∨ s = -1) :=
  ⟨rfl, construction_error_spec ⟨0, 0, 0⟩ 1 1 ⟨1, 1, 1⟩ 0.4 1.8 "up" "blue" []
    [(1 : ℤ), -1, 1, -1] rfl⟩

/-!
## Monopole (pyrodash/blocks/monopole.py)

A Monopole stores its charge and, for charges in the fixed enumeration
0, 2, -2, 4, -4, calls the Sphere constructor with the associated radius and
color.  For any other charge no branch of the if/elif chain runs: the Python
object is created without error but carries no sphere data (no center,
radius or surface attributes), modelled here by an Option-valued sphere.
-/

/-- Coordinate data of a Sphere: sphere.py lines 42-43 (center, radius) plus
the surface color passed to the drawing routine.  The mesh arrays are
rendering data and are omitted. -/
structure Sphere3 where
  center : Vec3
  radius : ℝ
  surface_color : String

/-- The data of a constructed Monopole. -/
structure Monopole3 where
  charge : ℤ
  sphere : Option Sphere3

/-- Monopole construction, monopole.py lines 37-55. -/
def mkMonopole (charge : ℤ) (center : Vec3) : Monopole3 :=
  { charge := charge,
    sphere :=
      if charge = 0 then some { center := center, radius := 0, surface_color := "k" }
      else if charge = 2 then
        some { center := center, radius := 0.16, surface_color := "#02590f" }
      else if charge = -2 then
        some { center := center, radius := 0.16, surface_color := "#be0119" }
      else if charge = 4 then
        some { center := center, radius := 0.24, surface_color := "#01ff07" }
      else if charge = -4 then
        some { center := center, radius := 0.24, surface_color := "r" }
      else none }

/-- C9: the five enumerated charges produce a sphere at the given center with
radius 0, 0.16, 0.16, 0.24, 0.24 and the matching color (black, dark green,
dark red, bright green, red); every other charge produces, without any
error, an object holding only the charge and no sphere data. -/
theorem monopole_charge_spec (q : ℤ) (c : Vec3)
    (hq : q ≠ 0 ∧ q ≠ 2 ∧ q ≠ -2 ∧ q ≠ 4 ∧ q ≠ -4) :
    (mkMonopole 0 c).sphere = some { center := c, radius := 0, surface_color := "k" } ∧
    (mkMonopole 2 c).sphere =
      some { center := c, radius := 0.16, surface_color := "#02590f" } ∧
    (mkMonopole (-2) c).sphere =
      some { center := c, radius := 0.16, surface_color := "#be0119" } ∧
    (mkMonopole 4 c).sphere =
      some { center := c, radius := 0.24, surface_color := "#01ff07" } ∧
    (mkMonopole (-4) c).sphere =
      some { center := c, radius := 0.24, surface_color := "r" } ∧
    (mkMonopole q c).sphere = none ∧ (mkMonopole q c).charge = q := by
  obtain ⟨h0, h2, hm2, h4, hm4⟩ := hq
  refine ⟨rfl, rfl, rfl, rfl, rfl, ?_, rfl⟩
  simp [mkMonopole, h0, h2, hm2, h4, hm4]

/-- Witness for C9 at the out-of-enumeration charge 3. -/
theorem monopole_charge_spec_witness :
    ((3 : ℤ) ≠ 0 ∧ (3 : ℤ) ≠ 2 ∧ (3 : ℤ) ≠ -2 ∧ (3 : ℤ) ≠ 4 ∧ (3 : ℤ) ≠ -4) ∧
    ((mkMonopole 0 ⟨0, 0, 0⟩).sphere =
      some { center := ⟨0, 0, 0⟩, radius := 0, surface_color := "k" } ∧
    (mkMonopole 2 ⟨0, 0, 0⟩).sphere =
      some { center := ⟨0, 0, 0⟩, radius := 0.16, surface_color := "#02590f" } ∧
    (mkMonopole (-2) ⟨0, 0, 0⟩).sphere =
      some { center := ⟨0, 0, 0⟩, radius := 0.16, surface_color := "#be0119" } ∧
    (mkMonopole 4 ⟨0, 0, 0⟩).sphere =
      some { center := ⟨0, 0, 0⟩, radius := 0.24, surface_color := "#01ff07" } ∧
    (mkMonopole (-4) ⟨0, 0, 0⟩).sphere =
      some { center := ⟨0, 0, 0⟩, radius := 0.24, surface_color := "r" } ∧
    (mkMonopole 3 ⟨0, 0, 0⟩).sphere = none ∧ (mkMonopole 3 ⟨0, 0, 0⟩).charge = 3) :=
  ⟨by norm_num,
    monopole_charge_spec 3 ⟨0, 0, 0⟩ (by norm_num)⟩

/-!
## Parallelepiped (pyrodash/geometrics/parallelepiped.py)

The constructor stores L = np.array(L) and computes the 8 vertices as
initial_vertex_position + itertools.product([0, L[0]], [0, L[1]], [0, L[2]]).
The indexing L[0] requires a 1-dimensional L: np.array of a scalar is a
0-dimensional array and integer-indexing it raises IndexError (too many
indices for array).  The face scatter objects are rendering data.
-/

/-- A numpy value passed as the side-length argument of Parallelepiped:
np.array of a Python or numpy scalar is a 0-dimensional array, np.array of a
3-sequence is a 1-dimensional array of length 3. -/
inductive NpVal where
  | scalar (a : ℝ)
  | vec (v : Vec3)

/-- Integer indexing arr[i] of such a numpy value.  Indexing a 0-dimensional
array raises IndexError in numpy, modelled by none. -/
def npIndex : NpVal → ℕ → Option ℝ
  | NpVal.scalar _, _ => none
  | NpVal.vec v, 0 => some v.x
  | NpVal.vec v, 1 => some v.y
  | NpVal.vec v, 2 => some v.z
  | NpVal.vec _, _ => none

/-- The 8 parallelepiped vertices, parallelepiped.py lines 54-56, in
itertools.product order; fails when L[0] cannot be indexed. -/
def parallelepiped_vertices (L : NpVal) (init : Vec3) : Option (List Vec3) :=
  match npIndex L 0, npIndex L 1, npIndex L 2 with
  | some lx, some ly, some lz =>
    some [init + ⟨0, 0, 0⟩, init + ⟨0, 0, lz⟩, init + ⟨0, ly, 0⟩, init + ⟨0, ly, lz⟩,
          init + ⟨lx, 0, 0⟩, init + ⟨lx, 0, lz⟩, init + ⟨lx, ly, 0⟩, init + ⟨lx, ly, lz⟩]
  | _, _, _ => none

/-- The data of a successfully constructed Parallelepiped. -/
structure Parallelepiped3 where
  vertices : List Vec3

/-- Parallelepiped construction, parallelepiped.py lines 51-60. -/
def mkParallelepiped (L : NpVal) (init : Vec3) : Option Parallelepiped3 :=
  (parallelepiped_vertices L init).map (fun vs => { vertices := vs })

/-!
## UnitCell (pyrodash/cell.py)

The constructor computes the tetrahedron centers, the lattice linear size
_L = round((len(spin_values) / 16) ** (1 / 3)), the starting spin index
initial_spin = (i + j*_L + k*_L*_L) * 16 and the 16-element cell slice, then
builds the cell cube, the 4 Tetrahedra, the individual cubes, the 4 Spins
groups, the 4 up monopoles (charge -sum of 4 consecutive cell spins) and the
4 down monopoles (charge = sum of the GLOBAL spin array over [i] ++
neighbors(i), i in {0,4,8,12}, with the neighbor rows read from the external
per-L data file down_neighbors/L...dat, injected here as the function nb).
-/

/-- Lattice linear size, cell.py line 58, with Python float arithmetic
modelled exactly over the reals. -/
def unitCell_L (spin_values : List ℤ) : ℤ :=
  round (((spin_values.length : ℝ) / 16) ^ ((1 : ℝ) / 3))

/-- Starting spin index of the cell, cell.py lines 59-61. -/
def unitCell_initial_spin (ijk : ℤ × ℤ × ℤ) (L : ℤ) : ℤ :=
  (ijk.1 + ijk.2.1 * L + ijk.2.2 * L * L) * 16

/-- Cell-local spins, cell.py line 62: the Python slice
spin_values[initial : initial + 16] for a nonnegative start index (every
start index arising from a lattice coordinate inside the L-cube is
nonnegative). -/
def unitCell_spin_values (spin_values : List ℤ) (initial : ℤ) : List ℤ :=
  (spin_values.drop initial.toNat).take 16

/-- Fractional offsets of the four up-tetrahedron centers, cell.py line 54. -/
def upCenterOffsets : Fin 4 → Vec3 := ![⟨0, 0, 0⟩, ⟨1, 1, 0⟩, ⟨0, 1, 1⟩, ⟨1, 0, 1⟩]

/-- Up-tetrahedron centers, cell.py lines 53-55:
(0.5 * offsets + ijk) / (sqrt(2) / 4). -/
def up_centers (ijk : ℤ × ℤ × ℤ) : Fin 4 → Vec3 := fun n =>
  vdiv (smul3 0.5 (upCenterOffsets n) + ⟨(ijk.1 : ℝ), (ijk.2.1 : ℝ), (ijk.2.2 : ℝ)⟩)
    (Real.sqrt 2 / 4)

/-- Down-tetrahedron centers, cell.py line 56: up centers + [1,1,1]/sqrt(2). -/
def down_centers (ijk : ℤ × ℤ × ℤ) : Fin 4 → Vec3 := fun n =>
  up_centers ijk n + vdiv ⟨1, 1, 1⟩ (Real.sqrt 2)

/-- The data of a Tetrahedra pair (side length default 0.25). -/
structure Tetra3 where
  center_up : Vec3
  up_vertices : Fin 4 → Vec3
  down_vertices : Fin 4 → Vec3

/-- Tetrahedra construction at the default side length L = 0.25. -/
def mkTetrahedra (center_up : Vec3) : Tetra3 :=
  { center_up := center_up,
    up_vertices := tetra_up_vertices center_up 0.25,
    down_vertices := tetra_down_vertices center_up 0.25 }

/-- Up-monopole charge of the n-th up tetrahedron, cell.py lines 86-89:
minus the sum of the cell spins at offsets 4n .. 4n+3. -/
def unitCell_up_charge (cellSpins : List ℤ) (n : ℕ) : ℤ :=
  -(((cellSpins.drop (4 * n)).take 4).sum)

/-- Down-monopole charge for the down-site key i, cell.py lines 99-105:
spines_down = [i] ++ neighbors(i) (np.insert at position 0), and the charge
is sum(spin_values[spines_down]) over the GLOBAL spin array, where the
neighbor row of the external per-L table is injected as nb. -/
def unitCell_down_charge (spin_values : List ℤ) (nb : ℕ → List ℕ) (i : ℕ) : ℤ :=
  ((i :: nb i).map (fun t => spin_values.getD t 0)).sum

/-- The four down monopoles, cell.py lines 98-105: the centers zipped with
the keys range(0, 16, 4). -/
def unitCell_monopoles_down (spin_values : List ℤ) (nb : ℕ → List ℕ)
    (ijk : ℤ × ℤ × ℤ) : List Monopole3 :=
  (List.zip
      [down_centers ijk 0, down_centers ijk 1, down_centers ijk 2, down_centers ijk 3]
      [0, 4, 8, 12]).map
    (fun ci => mkMonopole (unitCell_down_charge spin_values nb ci.2) ci.1)

/-- Sequential construction of a list whose element constructor may fail,
the model of a Python list comprehension over fallible constructors. -/
def optionMap {α β : Type} (f : α → Option β) : List α → Option (List β)
  | [] => some []
  | a :: as =>
    match f a, optionMap f as with
    | some b, some bs => some (b :: bs)
    | _, _ => none

/-- The data of a successfully constructed UnitCell. -/
structure UnitCell3 where
  ijk : ℤ × ℤ × ℤ
  initial_spin : ℤ
  spin_values : List ℤ
  cube : Parallelepiped3
  tetrahedra : List Tetra3
  up_cubes : List Parallelepiped3
  down_cubes : List Parallelepiped3
  spins : List Spins3
  monopoles_up : List Monopole3
  monopoles_down : List Monopole3

/-- UnitCell construction, cell.py lines 41-105, with each fallible step
sequenced in source order.  The cell cube is built as
Parallelepiped(np.sqrt(8), ijk * np.sqrt(8)) and the individual cubes as
Parallelepiped(np.sqrt(0.5), ...): in both calls the first argument is a
numpy scalar, so the stored L is a 0-dimensional array. -/
def mkUnitCell (ijk : ℤ × ℤ × ℤ) (spin_values : List ℤ) (nb : ℕ → List ℕ) :
    Option UnitCell3 :=
  let L := unitCell_L spin_values
  let initial := unitCell_initial_spin ijk L
  let cellSpins := unitCell_spin_values spin_values initial
  match mkParallelepiped (NpVal.scalar (Real.sqrt 8))
      (smul3 (Real.sqrt 8) ⟨(ijk.1 : ℝ), (ijk.2.1 : ℝ), (ijk.2.2 : ℝ)⟩) with
  | none => none
  | some cube =>
    let tetras := [mkTetrahedra (up_centers ijk 0), mkTetrahedra (up_centers ijk 1),
                   mkTetrahedra (up_centers ijk 2), mkTetrahedra (up_centers ijk 3)]
    match optionMap (fun t => mkParallelepiped (NpVal.scalar (Real.sqrt 0.5))
        (t.up_vertices 0 - ⟨Real.sqrt 0.5, Real.sqrt 0.5, Real.sqrt 0.5⟩)) tetras with
    | none => none
    | some upCubes =>
      match optionMap (fun t => mkParallelepiped (NpVal.scalar (Real.sqrt 0.5))
          (t.up_vertices 0)) tetras with
      | none => none
      | some downCubes =>
        match optionMap (fun tn : Tetra3 × ℕ =>
            (mkSpins [tn.1.up_vertices 0, tn.1.up_vertices 1,
                      tn.1.up_vertices 2, tn.1.up_vertices 3]
              ((cellSpins.drop tn.2).take 4)).toOption)
            (List.zip tetras [0, 4, 8, 12]) with
        | none => none
        | some spinsGroups =>
          let monopolesUp :=
            [mkMonopole (unitCell_up_charge cellSpins 0) (up_centers ijk 0),
             mkMonopole (unitCell_up_charge cellSpins 1) (up_centers ijk 1),
             mkMonopole (unitCell_up_charge cellSpins 2) (up_centers ijk 2),
             mkMonopole (unitCell_up_charge cellSpins 3) (up_centers ijk 3)]
          some { ijk := ijk, initial_spin := initial, spin_values := cellSpins,
                 cube := cube, tetrahedra := tetras, up_cubes := upCubes,
                 down_cubes := downCubes, spins := spinsGroups,
                 monopoles_up := monopolesUp,
                 monopoles_down := unitCell_monopoles_down spin_values nb ijk }

/-- Python slicing of consecutive indices expressed through getD. -/
theorem drop_take_eq_map_range (xs : List ℤ) (m k : ℕ) (h : m + k ≤ xs.length) :
    (xs.drop m).take k = (List.range k).map (fun t => xs.getD (m + t) 0) := by
  induction k with
  | zero => simp
  | succ kk ih =>
    have hk : m + kk ≤ xs.length := by omega
    have hlt : m + kk < xs.length := by omega
    rw [List.take_succ, ih hk, List.range_succ, List.map_append]
    simp [List.getElem?_drop, List.getElem?_eq_getElem hlt]

/-- C1: for a spin array of length 16 L^3 and a lattice coordinate inside
the L-cube, the computed lattice size round((len/16)^(1/3)) recovers L, the
starting index is (i + j L + k L^2) * 16, and the cell slice consists of
exactly the 16 consecutive global spins starting there. -/
theorem unitCell_slice_spec (Lsz : ℕ) (hL : 1 ≤ Lsz) (spins : List ℤ)
    (hlen : spins.length = 16 * Lsz ^ 3) (i j k : ℕ)
    (hi : i < Lsz) (hj : j < Lsz) (hk : k < Lsz) :
    unitCell_L spins = Lsz ∧
    unitCell_initial_spin ((i : ℤ), (j : ℤ), (k : ℤ)) (Lsz : ℤ) =
      (((i + j * Lsz + k * Lsz ^ 2) * 16 : ℕ) : ℤ) ∧
    unitCell_spin_values spins
        (unitCell_initial_spin ((i : ℤ), (j : ℤ), (k : ℤ)) (unitCell_L spins)) =
      (List.range 16).map
        (fun t => spins.getD ((i + j * Lsz + k * Lsz ^ 2) * 16 + t) 0) := by
  have hcube : ((Lsz : ℝ) ^ (3 : ℕ)) ^ ((1 : ℝ) / 3) = (Lsz : ℝ) := by
    rw [← Real.rpow_natCast (Lsz : ℝ) 3, ← Real.rpow_mul (Nat.cast_nonneg Lsz)]
    rw [show ((3 : ℕ) : ℝ) * ((1 : ℝ) / 3) = 1 by norm_num, Real.rpow_one]
  have hLval : unitCell_L spins = Lsz := by
    rw [unitCell_L, hlen]
    have hq : (((16 * Lsz ^ 3 : ℕ) : ℝ)) / 16 = (Lsz : ℝ) ^ (3 : ℕ) := by
      push_cast
      ring
    rw [hq, hcube, round_natCast]
  have hbound : (i + j * Lsz + k * Lsz ^ 2) * 16 + 16 ≤ 16 * Lsz ^ 3 := by
    nlinarith [hi, hj, hk, hL]
  refine ⟨hLval, by rw [unitCell_initial_spin]; push_cast; ring, ?_⟩
  rw [hLval]
  have hinit : unitCell_initial_spin ((i : ℤ), (j : ℤ), (k : ℤ)) (Lsz : ℤ) =
      (((i + j * Lsz + k * Lsz ^ 2) * 16 : ℕ) : ℤ) := by
    rw [unitCell_initial_spin]
    push_cast
    ring
  rw [unitCell_spin_values, hinit, Int.toNat_natCast]
  exact drop_take_eq_map_range spins _ 16 (by omega)

/-- Witness for C1 at L = 1, the +z configuration and cell (0,0,0). -/
theorem unitCell_slice_spec_witness :
    (1 ≤ 1 ∧
      ([1, -1, 1, -1, 1, -1, 1, -1, 1, -1, 1, -1, 1, -1, 1, -1] : List ℤ).length =
        16 * 1 ^ 3 ∧ 0 < 1 ∧ 0 < 1 ∧ 0 < 1) ∧
    (unitCell_L [1, -1, 1, -1, 1, -1, 1, -1, 1, -1, 1, -1, 1, -1, 1, -1] = (1 : ℕ) ∧
    unitCell_initial_spin ((0 : ℤ), (0 : ℤ), (0 : ℤ)) ((1 : ℕ) : ℤ) =
      (((0 + 0 * 1 + 0 * 1 ^ 2) * 16 : ℕ) : ℤ) ∧
    unitCell_spin_values [1, -1, 1, -1, 1, -1, 1, -1, 1, -1, 1, -1, 1, -1, 1, -1]
        (unitCell_initial_spin ((0 : ℤ), (0 : ℤ), (0 : ℤ))
          (unitCell_L [1, -1, 1, -1, 1, -1, 1, -1, 1, -1, 1, -1, 1, -1, 1, -1])) =
      (List.range 16).map
        (fun t => ([1, -1, 1, -1, 1, -1, 1, -1, 1, -1, 1, -1, 1, -1, 1, -1] : List ℤ).getD
          ((0 + 0 * 1 + 0 * 1 ^ 2) * 16 + t) 0)) :=
  ⟨⟨le_refl 1, by decide, Nat.one_pos, Nat.one_pos, Nat.one_pos⟩,
    unitCell_slice_spec 1 (le_refl 1)
      [1, -1, 1, -1, 1, -1, 1, -1, 1, -1, 1, -1, 1, -1, 1, -1] (by decide)
      0 0 0 Nat.one_pos Nat.one_pos Nat.one_pos⟩

/-- C3: the n-th up-monopole charge is minus the sum of the cell-local spins
at offsets 4n .. 4n+3; for 16 spins all +1 every up charge is -4, and for
the per-tetrahedron pattern [1,-1,1,-1] every up charge is 0. -/
theorem up_monopole_charge_spec (cellSpins : List ℤ) (h16 : cellSpins.length = 16)
    (n : ℕ) (hn : n < 4) :
    unitCell_up_charge cellSpins n =
      -(cellSpins.getD (4 * n) 0 + cellSpins.getD (4 * n + 1) 0 +
        cellSpins.getD (4 * n + 2) 0 + cellSpins.getD (4 * n + 3) 0) ∧
    unitCell_up_charge (List.replicate 16 1) n = -4 ∧
    unitCell_up_charge [1, -1, 1, -1, 1, -1, 1, -1, 1, -1, 1, -1, 1, -1, 1, -1] n = 0 := by
  refine ⟨?_, ?_, ?_⟩
  · rw [unitCell_up_charge, drop_take_eq_map_range cellSpins (4 * n) 4 (by omega)]
    rw [show List.range 4 = [0, 1, 2, 3] from rfl]
    simp only [List.map_cons, List.map_nil, List.sum_cons, List.sum_nil]
    ring_nf
  · interval_cases n <;> decide
  · interval_cases n <;> decide

/-- Witness for C3 on the all +1 configuration at n = 0. -/
theorem up_monopole_charge_spec_witness :
    ((List.replicate 16 (1 : ℤ)).length = 16 ∧ 0 < 4) ∧
    (unitCell_up_charge (List.replicate 16 1) 0 =
      -((List.replicate 16 (1 : ℤ)).getD (4 * 0) 0 +
        (List.replicate 16 (1 : ℤ)).getD (4 * 0 + 1) 0 +
        (List.replicate 16 (1 : ℤ)).getD (4 * 0 + 2) 0 +
        (List.replicate 16 (1 : ℤ)).getD (4 * 0 + 3) 0) ∧
    unitCell_up_charge (List.replicate 16 1) 0 = -4 ∧
    unitCell_up_charge [1, -1, 1, -1, 1, -1, 1, -1, 1, -1, 1, -1, 1, -1, 1, -1] 0 = 0) :=
  ⟨⟨by decide, by decide⟩,
    up_monopole_charge_spec (List.replicate 16 1) (by decide) 0 (by decide)⟩

/-- C2: the n-th down-monopole charge is the sum of the GLOBAL spin array at
the down-site key i = 4n together with the neighbor indices of the injected
per-L table row for that key, and it is not a function of the cell-local
16-spin slice: two global arrays with identical cell slices can give
different down charges. -/
theorem down_monopole_charge_spec (g : List ℤ) (nb : ℕ → List ℕ)
    (ijk : ℤ × ℤ × ℤ) (n : ℕ) (hn : n < 4) :
    ((unitCell_monopoles_down g nb ijk).getD n ⟨0, none⟩).charge =
      g.getD (4 * n) 0 + ((nb (4 * n)).map (fun t => g.getD t 0)).sum ∧
    (∃ nb2 : ℕ → List ℕ, ∃ g1 g2 : List ℤ,
      g1.length = 128 ∧ g2.length = 128 ∧
      unitCell_spin_values g1 0 = unitCell_spin_values g2 0 ∧
      unitCell_down_charge g1 nb2 0 ≠ unitCell_down_charge g2 nb2 0) := by
  constructor
  · interval_cases n <;>
      simp [unitCell_monopoles_down, unitCell_down_charge, mkMonopole]
  · refine ⟨fun _ => [16], List.replicate 128 1,
      List.replicate 16 1 ++ (-1 : ℤ) :: List.replicate 111 1, ?_, ?_, ?_, ?_⟩
    · decide
    · decide
    · decide
    · decide

/-- Witness for C2 at the empty table and cell (0,0,0), site n = 0. -/
theorem down_monopole_charge_spec_witness :
    (0 < 4) ∧
    (((unitCell_monopoles_down [1, 1, 1, 1] (fun _ => []) (0, 0, 0)).getD 0
        ⟨0, none⟩).charge =
      ([1, 1, 1, 1] : List ℤ).getD (4 * 0) 0 +
        (((fun _ : ℕ => ([] : List ℕ)) (4 * 0)).map
          (fun t => ([1, 1, 1, 1] : List ℤ).getD t 0)).sum ∧
    (∃ nb2 : ℕ → List ℕ, ∃ g1 g2 : List ℤ,
      g1.length = 128 ∧ g2.length = 128 ∧
      unitCell_spin_values g1 0 = unitCell_spin_values g2 0 ∧
      unitCell_down_charge g1 nb2 0 ≠ unitCell_down_charge g2 nb2 0)) :=
  ⟨by decide,
    down_monopole_charge_spec [1, 1, 1, 1] (fun _ => []) (0, 0, 0) 0 (by decide)⟩

/-- C4 is refuted by the code: UnitCell([0,0,0], [1,-1,1,-1]*4) does not
succeed.  The cell cube is built as Parallelepiped(np.sqrt(8), ijk*np.sqrt(8))
with a numpy scalar as side-length argument; Parallelepiped stores
np.array(np.sqrt(8)), a 0-dimensional array, and indexing it as L[0] at
parallelepiped.py line 55 raises IndexError, so the construction crashes
before any tetrahedra, spins or monopoles are produced. -/
theorem unitCell_c4_failure :
    mkParallelepiped (NpVal.scalar (Real.sqrt 8))
      (smul3 (Real.sqrt 8) ⟨((0 : ℤ) : ℝ), ((0 : ℤ) : ℝ), ((0 : ℤ) : ℝ)⟩) = none ∧
    mkUnitCell (0, 0, 0) [1, -1, 1, -1, 1, -1, 1, -1, 1, -1, 1, -1, 1, -1, 1, -1]
      (fun _ => []) = none :=
  ⟨rfl, rfl⟩

end

end Pyrodash
